import Mathlib

/-!
Verification development for the CloudWatch-to-Logz.io log forwarding core
(`src/python3/cloudwatch/src/lambda_function.py`).

The Python source is shallowly embedded: dictionaries become association
lists (`Rec`), JSON values become the inductive `JVal`, raised exceptions
become `Except PyErr`, and the process environment plus the two external
library functions whose exact behaviour is opaque to this module
(gzip decompression and the process-seeded string hash) become fields of
an explicit `Env` record.  All other behaviour is translated directly
from the source.
-/

set_option maxRecDepth 4000

/-- Python exception classes observable in this module.  `valueError`
covers `ValueError` and its subclasses `binascii.Error`,
`json.JSONDecodeError` and `UnicodeDecodeError`. -/
inductive PyErr where
  | keyError (k : String)
  | valueError (msg : String)
  | typeError (msg : String)
  | attributeError (msg : String)
  | indexError (msg : String)
  | osError (msg : String)
deriving Repr, DecidableEq

/-- JSON-style values held in a log record: the payload decoded by
`json.loads` and the field values of log events.  Floats keep their
source token text; no claim inspects float arithmetic. -/
inductive JVal where
  | null
  | bool (b : Bool)
  | int (n : Int)
  | float (raw : String)
  | str (s : String)
  | arr (xs : List JVal)
  | obj (kvs : List (String × JVal))
deriving Repr

/-- A Python dict with string keys, as an insertion-ordered association
list.  Dicts built by the interpreter never hold a key twice. -/
abbrev Rec := List (String × JVal)

/-- First-occurrence lookup, i.e. `d[k]` on a duplicate-free dict. -/
def lookupJ : Rec → String → Option JVal
  | [], _ => none
  | (k', v) :: r, k => if k' = k then some v else lookupJ r k

/-- `k in d`. -/
def containsK (r : Rec) (k : String) : Bool :=
  (lookupJ r k).isSome

/-- `d[k] = v`: overwrite in place if the key exists, else append. -/
def setK : Rec → String → JVal → Rec
  | [], k, v => [(k, v)]
  | (k', v') :: r, k, v =>
    if k' = k then (k, v) :: r else (k', v') :: setK r k v

/-- `del d[k]` for a present key: drop the first occurrence. -/
def delK : Rec → String → Rec
  | [], _ => []
  | (k', v') :: r, k => if k' = k then r else delK r k |> ((k', v') :: ·)

/-- Number of entries carrying key `k` (0 or 1 for real dicts). -/
def countKey : Rec → String → Nat
  | [], _ => 0
  | (k', _) :: r, k => (if k' = k then 1 else 0) + countKey r k

/-- `d[k]` raising `KeyError` when the key is absent. -/
def getItem (r : Rec) (k : String) : Except PyErr JVal :=
  match lookupJ r k with
  | some v => Except.ok v
  | none => Except.error (PyErr.keyError k)

/-- `del d[k]`, raising `KeyError` when the key is absent. -/
def delItem (r : Rec) (k : String) : Except PyErr Rec :=
  if containsK r k then Except.ok (delK r k) else Except.error (PyErr.keyError k)

/-- `d.update(other)`: merge `other` into `d` in `other`'s order,
overwriting same-named keys. -/
def updateRec (r other : Rec) : Rec :=
  other.foldl (fun acc kv => setK acc kv.1 kv.2) r

/-- Subscripting an arbitrary decoded JSON value, `doc[k]`: `KeyError`
for a missing key of an object, `TypeError` on non-objects. -/
def getJVal (v : JVal) (k : String) : Except PyErr JVal :=
  match v with
  | JVal.obj kvs => getItem kvs k
  | _ => Except.error (PyErr.typeError "indices must be integers")

mutual

/-- Python `repr` of a decoded JSON value.  String escaping inside
`repr` is simplified to plain quoting; the pipeline never compares such
renderings. -/
def pyRepr : JVal → String
  | JVal.null => "None"
  | JVal.bool b => if b then "True" else "False"
  | JVal.int n => toString n
  | JVal.float raw => raw
  | JVal.str s => "'" ++ s ++ "'"
  | JVal.arr xs => "[" ++ pyReprL xs ++ "]"
  | JVal.obj kvs => "\x7b" ++ pyReprO kvs ++ "\x7d"

/-- Comma-separated `repr` of list elements. -/
def pyReprL : List JVal → String
  | [] => ""
  | [x] => pyRepr x
  | x :: y :: xs => pyRepr x ++ ", " ++ pyReprL (y :: xs)

/-- Comma-separated `repr` of dict items. -/
def pyReprO : List (String × JVal) → String
  | [] => ""
  | [(k, v)] => "'" ++ k ++ "': " ++ pyRepr v
  | (k, v) :: y :: xs => "'" ++ k ++ "': " ++ pyRepr v ++ ", " ++ pyReprO (y :: xs)

end

/-- Python `str` of a decoded JSON value: identity on strings, `repr`
otherwise (these agree for every non-string type reaching `str` here). -/
def pyStr : JVal → String
  | JVal.str s => s
  | v => pyRepr v

/- ### Basic association-list lemmas -/

theorem lookupJ_setK_self (r : Rec) (k : String) (v : JVal) :
    lookupJ (setK r k v) k = some v := by
  induction r with
  | nil => simp [setK, lookupJ]
  | cons p r ih =>
    obtain ⟨a, b⟩ := p
    by_cases h : a = k
    · simp [setK, h, lookupJ]
    · simpa [setK, h, lookupJ] using ih

theorem lookupJ_setK_ne (r : Rec) (k k' : String) (v : JVal) (h : k' ≠ k) :
    lookupJ (setK r k v) k' = lookupJ r k' := by
  induction r with
  | nil => simp [setK, lookupJ, Ne.symm h]
  | cons p r ih =>
    obtain ⟨a, b⟩ := p
    by_cases ha : a = k
    · simp [setK, ha, lookupJ, Ne.symm h]
    · by_cases ha' : a = k'
      · simp [setK, ha, lookupJ, ha', h]
      · simpa [setK, ha, lookupJ, ha'] using ih

theorem containsK_setK_self (r : Rec) (k : String) (v : JVal) :
    containsK (setK r k v) k = true := by
  simp [containsK, lookupJ_setK_self]

theorem containsK_setK_ne (r : Rec) (k k' : String) (v : JVal) (h : k' ≠ k) :
    containsK (setK r k v) k' = containsK r k' := by
  simp [containsK, lookupJ_setK_ne r k k' v h]

theorem lookupJ_eq_none_of_countKey_zero (r : Rec) (k : String)
    (h : countKey r k = 0) : lookupJ r k = none := by
  induction r with
  | nil => simp [lookupJ]
  | cons p r ih =>
    obtain ⟨a, b⟩ := p
    by_cases ha : a = k
    · simp [countKey, ha] at h
    · have h' : countKey r k = 0 := by simpa [countKey, ha] using h
      simpa [lookupJ, ha] using ih h'

theorem lookupJ_delK_self (r : Rec) (k : String) (h : countKey r k ≤ 1) :
    lookupJ (delK r k) k = none := by
  induction r with
  | nil => simp [delK, lookupJ]
  | cons p r ih =>
    obtain ⟨a, b⟩ := p
    by_cases ha : a = k
    · have h0 : countKey r k = 0 := by
        have := h
        simp [countKey, ha] at this
        omega
      simpa [delK, ha] using lookupJ_eq_none_of_countKey_zero r k h0
    · have h' : countKey r k ≤ 1 := by simpa [countKey, ha] using h
      simpa [delK, ha, lookupJ] using ih h'

theorem lookupJ_delK_ne (r : Rec) (k k' : String) (h : k' ≠ k) :
    lookupJ (delK r k) k' = lookupJ r k' := by
  induction r with
  | nil => simp [delK]
  | cons p r ih =>
    obtain ⟨a, b⟩ := p
    by_cases ha : a = k
    · simp [delK, ha, lookupJ, Ne.symm h]
    · by_cases ha' : a = k'
      · simp [delK, ha, lookupJ, ha', h]
      · simpa [delK, ha, lookupJ, ha'] using ih

/- ### String helpers over code-point lists -/

/-- Map a function over each element and concatenate the results. -/
def concatMap (f : α → List β) : List α → List β
  | [] => []
  | a :: as => f a ++ concatMap f as

/-- Python slice `s[a:b]` for in-range indices. -/
def sliceL (cs : List Char) (a b : Nat) : List Char :=
  (cs.drop a).take (b - a)

/-- Python slice `s[a:]`. -/
def sliceFrom (cs : List Char) (a : Nat) : List Char :=
  cs.drop a

/-- Position of the first occurrence of `c`, as in `str.index`. -/
def idxOfC (c : Char) : List Char → Option Nat
  | [] => none
  | d :: cs => if d = c then some 0 else (idxOfC c cs).map (· + 1)

/-- Python `str.split(sep)` for a one-character separator: splitting the
empty string yields one empty part. -/
def splitC (sep : Char) : List Char → List (List Char)
  | [] => [[]]
  | c :: cs =>
    if c = sep then [] :: splitC sep cs
    else
      match splitC sep cs with
      | [] => [[c]]
      | p :: ps => (c :: p) :: ps

/-- Does `hay` start with `needle`? -/
def startsWithL : List Char → List Char → Bool
  | [], _ => true
  | _ :: _, [] => false
  | a :: as, b :: bs => a = b && startsWithL as bs

/-- Python `needle in hay` on strings. -/
def subOccursL (needle : List Char) : List Char → Bool
  | [] => startsWithL needle []
  | c :: t => startsWithL needle (c :: t) || subOccursL needle t

/-- Python `str.lower`, over the ASCII range used by the level tokens. -/
def lowerL (cs : List Char) : List Char :=
  cs.map Char.toLower

/- ### A backtracking regular-expression engine

`IP_PATTERN` is transcribed below into the `Re` syntax.  `Re.ends`
returns every end position of a match starting at `pos`, in the order a
backtracking engine explores them (greedy repetitions longest first,
alternatives left to right), so the head of the filtered list is the
extent Python's `re` engine picks.  Bounded repetitions `r{lo,hi}` are
expanded at construction time; `plus` covers the single unbounded
repetition `{1,}` of the pattern, over a character class. -/

inductive Re where
  | fail
  | eps
  | cls (p : Char → Bool)
  | plus (p : Char → Bool)
  | seq (a b : Re)
  | alt (a b : Re)

/-- All candidate end positions of a match of `r` starting at `pos`,
in backtracking preference order. -/
def Re.ends : Re → List Char → Nat → List Nat
  | Re.fail, _, _ => []
  | Re.eps, _, pos => [pos]
  | Re.cls p, cs, pos =>
    match cs.drop pos with
    | [] => []
    | c :: _ => if p c then [pos + 1] else []
  | Re.plus p, cs, pos =>
    let k := ((cs.drop pos).takeWhile p).length
    (List.range k).map (fun i => pos + k - i)
  | Re.seq a b, cs, pos => concatMap (Re.ends b cs) (Re.ends a cs pos)
  | Re.alt a b, cs, pos => Re.ends a cs pos ++ Re.ends b cs pos

/-- Sequence a list of patterns. -/
def catR : List Re → Re
  | [] => Re.eps
  | [r] => r
  | r :: rs => Re.seq r (catR rs)

/-- Ordered alternation of a list of patterns. -/
def altsR : List Re → Re
  | [] => Re.fail
  | [r] => r
  | r :: rs => Re.alt r (altsR rs)

/-- `r{0,n}`, greedy: prefer one more iteration over stopping. -/
def optChain : Nat → Re → Re
  | 0, _ => Re.eps
  | n + 1, r => Re.alt (Re.seq r (optChain n r)) Re.eps

/-- `r{lo,hi}`, greedy, expanded. -/
def repR (lo hi : Nat) (r : Re) : Re :=
  catR (List.replicate lo r ++ [optChain (hi - lo) r])

/-- `[0-9]`. -/
def isDigitC (c : Char) : Bool := '0' ≤ c && c ≤ '9'

/-- `[0-9a-fA-F]`. -/
def isHexC (c : Char) : Bool :=
  isDigitC c || ('a' ≤ c && c ≤ 'f') || ('A' ≤ c && c ≤ 'F')

/-- `[0-9a-zA-Z]`. -/
def isAlnumC (c : Char) : Bool :=
  isDigitC c || ('a' ≤ c && c ≤ 'z') || ('A' ≤ c && c ≤ 'Z')

/-- The lookaround class `[:.\w]` (ASCII range; the messages the claims
quantify over are ASCII, and `re.IGNORECASE` does not change `\w`). -/
def wordColonDot (c : Char) : Bool :=
  c = ':' || c = '.' || c = '_' || isAlnumC c

/-- A literal character. -/
def chR (c : Char) : Re := Re.cls (fun x => x = c)

/-- A literal letter under `re.IGNORECASE`. -/
def chCIR (c : Char) : Re := Re.cls (fun x => x.toLower = c)

/-- `[0-9a-fA-F]{1,4}`. -/
def h14 : Re := repR 1 4 (Re.cls isHexC)

/-- `:`. -/
def colonR : Re := chR ':'

/-- `\.`. -/
def dotR : Re := chR '.'

/-- `(?:25[0-5]|(?:2[0-4]|1{0,1}[0-9]){0,1}[0-9])` — one decimal octet. -/
def octR : Re :=
  Re.alt
    (catR [chR '2', chR '5', Re.cls (fun c => '0' ≤ c && c ≤ '5')])
    (catR [repR 0 1 (Re.alt (catR [chR '2', Re.cls (fun c => '0' ≤ c && c ≤ '4')])
                            (catR [repR 0 1 (chR '1'), Re.cls isDigitC])),
           Re.cls isDigitC])

/-- `(?:octet\.){3,3}octet` — the dotted-decimal tail of the mixed
IPv6/IPv4 alternatives. -/
def ip4dec : Re :=
  catR [repR 3 3 (catR [octR, dotR]), octR]

/-- The body of `IP_PATTERN` (between the two lookarounds), alternative
by alternative in source order. -/
def IP_PATTERN : Re :=
  altsR
    [ catR [repR 3 3 (catR [repR 1 3 (Re.cls isDigitC), dotR]), repR 1 3 (Re.cls isDigitC)]
    , catR [repR 7 7 (catR [h14, colonR]), h14]
    , catR [repR 1 7 (catR [h14, colonR]), colonR]
    , catR [repR 1 6 (catR [h14, colonR]), colonR, h14]
    , catR [repR 1 5 (catR [h14, colonR]), repR 1 2 (catR [colonR, h14])]
    , catR [repR 1 4 (catR [h14, colonR]), repR 1 3 (catR [colonR, h14])]
    , catR [repR 1 3 (catR [h14, colonR]), repR 1 4 (catR [colonR, h14])]
    , catR [repR 1 2 (catR [h14, colonR]), repR 1 5 (catR [colonR, h14])]
    , catR [h14, colonR, repR 1 6 (catR [colonR, h14])]
    , catR [colonR, Re.alt (repR 1 7 (catR [colonR, h14])) colonR]
    , catR [chCIR 'f', chCIR 'e', chR '8', chR '0', colonR,
            repR 0 4 (catR [colonR, repR 0 4 (Re.cls isHexC)]), chR '%', Re.plus isAlnumC]
    , catR [colonR, colonR,
            repR 0 1 (catR [chCIR 'f', chCIR 'f', chCIR 'f', chCIR 'f',
                            repR 0 1 (catR [colonR, repR 1 4 (chR '0')]), colonR]),
            ip4dec]
    , catR [repR 1 4 (catR [h14, colonR]), colonR, ip4dec] ]

/-- The negative lookbehind `(?<![:.\w])` at a candidate start. -/
def lookbehindOk (cs : List Char) (pos : Nat) : Bool :=
  match pos with
  | 0 => true
  | p + 1 =>
    match cs.drop p with
    | [] => true
    | c :: _ => !wordColonDot c

/-- The negative lookahead `(?![:.\w])` at a candidate end. -/
def lookaheadOk (cs : List Char) (pos : Nat) : Bool :=
  match cs.drop pos with
  | [] => true
  | c :: _ => !wordColonDot c

/-- The end of the match `re` would report at `pos`: the first candidate
extent, in backtracking order, whose following character admits the
lookahead. -/
def firstMatchEnd (cs : List Char) (pos : Nat) : Option Nat :=
  (Re.ends IP_PATTERN cs pos).find? (fun e => lookaheadOk cs e)

/-- `IP_PATTERN.finditer`: scan left to right, resume after each match. -/
def finditerAux (cs : List Char) : Nat → Nat → List (Nat × Nat)
  | 0, _ => []
  | fuel + 1, pos =>
    if cs.length ≤ pos then []
    else if lookbehindOk cs pos then
      match firstMatchEnd cs pos with
      | some e => (pos, e) :: finditerAux cs fuel (max e (pos + 1))
      | none => finditerAux cs fuel (pos + 1)
    else finditerAux cs fuel (pos + 1)

/-- All matches of `IP_PATTERN` in a message. -/
def ipFinditer (cs : List Char) : List (Nat × Nat) :=
  finditerAux cs (cs.length + 1) 0

/-- The replacement `'IP(' + str(hash(match.group())) + ')'` written for
a matched literal, with `hash` the process-stable string hash `h'`. -/
def ipToken (h' : String → Int) (txt : List Char) : List Char :=
  ("IP(".data) ++ (toString (h' (String.mk txt))).data ++ [')']

/-- One iteration of the replacement loop of `_anonymize_ip_addresses`:
the state is `(last_end, new_msg)`. -/
def anonStep (h' : String → Int) (cs : List Char) (acc : Nat × List Char)
    (m : Nat × Nat) : Nat × List Char :=
  (m.2, acc.2 ++ sliceL cs acc.1 m.1 ++ ipToken h' (sliceL cs m.1 m.2))

/-- The message rewriting of `_anonymize_ip_addresses`. -/
def anonymizeCore (h' : String → Int) (cs : List Char) : List Char :=
  let r := (ipFinditer cs).foldl (anonStep h' cs) (0, [])
  r.2 ++ sliceL cs r.1 cs.length

/-- String-level wrapper of the rewriting. -/
def anonymizeStr (h' : String → Int) (s : String) : String :=
  String.mk (anonymizeCore h' s.data)

/-- Description of the rewriting used to state the claims: the spans
between consecutive matches are kept verbatim and in order, and each
matched span is rendered as its token. -/
def renderMatches (h' : String → Int) (cs : List Char) :
    List (Nat × Nat) → Nat → List Char
  | [], pos => sliceL cs pos cs.length
  | (s, e) :: ms, pos =>
    sliceL cs pos s ++ ipToken h' (sliceL cs s e) ++ renderMatches h' cs ms e


/- ### `json.loads` -/

/-- The whitespace `json` skips between tokens. -/
def jsonWs (c : Char) : Bool := c = ' ' || c = '\t' || c = '\n' || c = '\r'

/-- Skip JSON whitespace. -/
def skipWs (cs : List Char) : List Char := cs.dropWhile jsonWs

/-- Value of one hexadecimal digit, either case: digits map to 0-9 via
code point minus 48, letters to 10-15 via lowered code point minus 87. -/
def hexVal (c : Char) : Option Nat :=
  if isDigitC c then some (c.toNat - 48)
  else
    let l := c.toLower
    if 'a' ≤ l && l ≤ 'f' then some (l.toNat - 87) else none

/-- Four hex digits of a `\u` escape. -/
def parseU4 : List Char → Option (Nat × List Char)
  | a :: b :: c :: d :: rest => do
    let x ← hexVal a
    let y ← hexVal b
    let z ← hexVal c
    let w ← hexVal d
    some ((((x * 16 + y) * 16 + z) * 16 + w, rest))
  | _ => none

/-- Single-character escapes of JSON strings. -/
def escChar (c : Char) : Option Char :=
  if c = '"' then some '"'
  else if c = '\\' then some '\\'
  else if c = '/' then some '/'
  else if c = 'b' then some '\x08'
  else if c = 'f' then some '\x0c'
  else if c = 'n' then some '\n'
  else if c = 'r' then some '\r'
  else if c = 't' then some '\t'
  else none

/-- Body of a JSON string after the opening quote; returns the decoded
content and the input after the closing quote.  Surrogate pairs in
`\u` escapes are combined; a lone surrogate (which Python would keep)
has no counterpart in `Char` and is modelled as a parse failure. -/
def parseStrBody : Nat → List Char → Option (List Char × List Char)
  | 0, _ => none
  | fuel + 1, cs =>
    match cs with
    | [] => none
    | '"' :: rest => some ([], rest)
    | '\\' :: 'u' :: rest =>
      (parseU4 rest).bind (fun p =>
        let n := p.1
        if 0xD800 ≤ n ∧ n ≤ 0xDBFF then
          match p.2 with
          | '\\' :: 'u' :: rest2 =>
            (parseU4 rest2).bind (fun q =>
              if 0xDC00 ≤ q.1 ∧ q.1 ≤ 0xDFFF then
                (parseStrBody fuel q.2).map (fun r =>
                  (Char.ofNat (0x10000 + (n - 0xD800) * 0x400 + (q.1 - 0xDC00)) :: r.1, r.2))
              else none)
          | _ => none
        else if 0xDC00 ≤ n ∧ n ≤ 0xDFFF then none
        else (parseStrBody fuel p.2).map (fun r => (Char.ofNat n :: r.1, r.2)))
    | '\\' :: c :: rest =>
      match escChar c with
      | some e => (parseStrBody fuel rest).map (fun r => (e :: r.1, r.2))
      | none => none
    | '\\' :: [] => none
    | c :: rest =>
      if c.toNat < 0x20 then none
      else (parseStrBody fuel rest).map (fun r => (c :: r.1, r.2))

/-- Numeric value of a digit string. -/
def digitsVal (ds : List Char) : Nat :=
  ds.foldl (fun acc c => acc * 10 + (c.toNat - '0'.toNat)) 0

/-- Exponent part `([eE][+-]?\d+)?` of a JSON number; `([], cs)` when
absent, `none` on a malformed exponent. -/
def parseExpPart (cs : List Char) : Option (List Char × List Char) :=
  match cs with
  | c :: t =>
    if c = 'e' ∨ c = 'E' then
      let sgn : List Char × List Char :=
        match t with
        | '+' :: u => (['+'], u)
        | '-' :: u => (['-'], u)
        | _ => ([], t)
      let ds := sgn.2.takeWhile isDigitC
      if ds.isEmpty then none
      else some (c :: sgn.1 ++ ds, sgn.2.dropWhile isDigitC)
    else some ([], cs)
  | [] => some ([], [])

/-- Fraction and exponent `(\.\d+)?([eE][+-]?\d+)?`; `([], cs)` when
both are absent. -/
def parseFracExp (cs : List Char) : Option (List Char × List Char) :=
  match cs with
  | '.' :: t =>
    let ds := t.takeWhile isDigitC
    if ds.isEmpty then none
    else
      (parseExpPart (t.dropWhile isDigitC)).map (fun e =>
        ('.' :: ds ++ e.1, e.2))
  | _ => parseExpPart cs

/-- A JSON number, grammar `-?(0|[1-9]\d*)(\.\d+)?([eE][+-]?\d+)?`:
an `int` when it has no fraction or exponent, otherwise a float kept as
its token text. -/
def parseNumber (cs : List Char) : Option (JVal × List Char) :=
  let sgn : Bool × List Char :=
    match cs with
    | '-' :: t => (true, t)
    | _ => (false, cs)
  match sgn.2 with
  | '0' :: t =>
    (parseFracExp t).map (fun fe =>
      (if fe.1.isEmpty then JVal.int 0
       else JVal.float (String.mk ((if sgn.1 then ['-'] else []) ++ '0' :: fe.1)), fe.2))
  | c :: t =>
    if '1' ≤ c ∧ c ≤ '9' then
      let ds := c :: t.takeWhile isDigitC
      let rest := t.dropWhile isDigitC
      (parseFracExp rest).map (fun fe =>
        (if fe.1.isEmpty then
           JVal.int (if sgn.1 then -(digitsVal ds : Int) else (digitsVal ds : Int))
         else JVal.float (String.mk ((if sgn.1 then ['-'] else []) ++ ds ++ fe.1)), fe.2))
    else none
  | [] => none

mutual

/-- One JSON value, fuelled recursive descent.  `NaN`, `Infinity` and
`-Infinity` are accepted as Python's decoder does by default. -/
def parseJVal : Nat → List Char → Option (JVal × List Char)
  | 0, _ => none
  | fuel + 1, cs =>
    match cs with
    | [] => none
    | 'n' :: 'u' :: 'l' :: 'l' :: rest => some (JVal.null, rest)
    | 't' :: 'r' :: 'u' :: 'e' :: rest => some (JVal.bool true, rest)
    | 'f' :: 'a' :: 'l' :: 's' :: 'e' :: rest => some (JVal.bool false, rest)
    | 'N' :: 'a' :: 'N' :: rest => some (JVal.float "nan", rest)
    | 'I' :: 'n' :: 'f' :: 'i' :: 'n' :: 'i' :: 't' :: 'y' :: rest =>
      some (JVal.float "inf", rest)
    | '-' :: 'I' :: 'n' :: 'f' :: 'i' :: 'n' :: 'i' :: 't' :: 'y' :: rest =>
      some (JVal.float "-inf", rest)
    | '"' :: rest =>
      (parseStrBody (rest.length + 1) rest).map (fun p => (JVal.str (String.mk p.1), p.2))
    | '[' :: rest =>
      match skipWs rest with
      | ']' :: r2 => some (JVal.arr [], r2)
      | r1 => parseArrItems fuel r1 []
    | '\x7b' :: rest =>
      match skipWs rest with
      | '\x7d' :: r2 => some (JVal.obj [], r2)
      | r1 => parseObjItems fuel r1 []
    | c :: _ => if c = '-' ∨ isDigitC c then parseNumber cs else none

/-- Elements of a JSON array after the opening bracket. -/
def parseArrItems : Nat → List Char → List JVal → Option (JVal × List Char)
  | 0, _, _ => none
  | fuel + 1, cs, acc =>
    (parseJVal fuel (skipWs cs)).bind (fun p =>
      match skipWs p.2 with
      | ',' :: t => parseArrItems fuel t (acc ++ [p.1])
      | ']' :: t => some (JVal.arr (acc ++ [p.1]), t)
      | _ => none)

/-- Members of a JSON object after the opening brace; a repeated key
keeps the last value at the first position, as a Python dict does. -/
def parseObjItems : Nat → List Char → List (String × JVal) → Option (JVal × List Char)
  | 0, _, _ => none
  | fuel + 1, cs, acc =>
    match skipWs cs with
    | '"' :: rest =>
      (parseStrBody (rest.length + 1) rest).bind (fun kp =>
        match skipWs kp.2 with
        | ':' :: r3 =>
          (parseJVal fuel (skipWs r3)).bind (fun p =>
            let acc' := setK acc (String.mk kp.1) p.1
            match skipWs p.2 with
            | ',' :: r5 => parseObjItems fuel r5 acc'
            | '\x7d' :: r5 => some (JVal.obj acc', r5)
            | _ => none)
        | _ => none)
    | _ => none

end

/-- `json.loads` on text: whole-input parse, `ValueError`
(`json.JSONDecodeError`) on failure or trailing garbage. -/
def jsonLoads (s : String) : Except PyErr JVal :=
  let cs := skipWs s.data
  match parseJVal (2 * cs.length + 2) cs with
  | some (v, rest) =>
    if (skipWs rest).isEmpty then Except.ok v
    else Except.error (PyErr.valueError "Extra data")
  | none => Except.error (PyErr.valueError "Expecting value")

/- ### `base64.b64decode` -/

/-- Value of a standard-alphabet base64 symbol. -/
def b64Val (c : Char) : Option Nat :=
  if 'A' ≤ c && c ≤ 'Z' then some (c.toNat - 'A'.toNat)
  else if 'a' ≤ c && c ≤ 'z' then some (c.toNat - 'a'.toNat + 26)
  else if isDigitC c then some (c.toNat - '0'.toNat + 52)
  else if c = '+' then some 62
  else if c = '/' then some 63
  else none

/-- Decode the 2- or 3-symbol quantum preceding padding. -/
def b64Flush (q : List Nat) : Option (List Nat) :=
  match q with
  | [a, b] => some [a * 4 + b / 16]
  | [a, b, c] => some [a * 4 + b / 16, (b % 16) * 16 + c / 4]
  | _ => none

/-- `binascii.a2b_base64` in its default non-strict mode: characters
outside the alphabet are discarded; a `=` seen with at least two
symbols in the current quantum counts as padding, and once symbols plus
pads fill the quantum the leftover bits are emitted and the rest of the
input ignored; a data symbol resets the pad count; a leftover quantum
at end of input is a `binascii.Error` (a `ValueError`).  The state is
the pending quantum `q`, the pad count and the output bytes. -/
def b64decodeAux : List Char → List Nat → Nat → List Nat → Except PyErr (List Nat)
  | [], q, _, out =>
    match q.length with
    | 0 => Except.ok out
    | 1 => Except.error (PyErr.valueError "Invalid base64-encoded string")
    | _ => Except.error (PyErr.valueError "Incorrect padding")
  | c :: cs, q, pads, out =>
    match b64Val c with
    | some v =>
      match q ++ [v] with
      | [a, b, c', d] =>
        b64decodeAux cs [] 0 (out ++ [a * 4 + b / 16, (b % 16) * 16 + c' / 4, (c' % 4) * 64 + d])
      | q' => b64decodeAux cs q' 0 out
    | none =>
      if c = '=' then
        if 2 ≤ q.length then
          if 4 ≤ q.length + pads + 1 then
            match b64Flush q with
            | some bs => Except.ok (out ++ bs)
            | none => Except.error (PyErr.valueError "Invalid padding")
          else b64decodeAux cs q (pads + 1) out
        else b64decodeAux cs q pads out
      else b64decodeAux cs q pads out

/-- `base64.b64decode` on a text payload: the argument is first encoded
as ASCII (`UnicodeEncodeError` is a `ValueError`), then fed to the
non-strict base64 decoder. -/
def b64decode (s : String) : Except PyErr (List Nat) :=
  if s.data.all (fun c => c.toNat < 128) then b64decodeAux s.data [] 0 []
  else Except.error (PyErr.valueError "ordinal not in range(128)")


/- ### The lambda function -/

/-- The process environment and the two external functions whose exact
behaviour is outside this module: `gunzip` stands for
`gzip.GzipFile(fileobj=...).read()` followed by the UTF-8 text view
`json.loads` takes of the bytes (its errors are `OSError`-class, which
`except ValueError` does not catch), and `pyHash` for the builtin
`hash` on strings, fixed for the lifetime of the process. -/
structure Env where
  format : Option String
  enrich : Option String
  typeTag : Option String
  pyHash : String → Int
  gunzip : List Nat → Except PyErr String

/-- The recognized level vocabulary. -/
def LOG_LEVELS : List String :=
  ["alert", "trace", "debug", "notice", "info", "warn",
   "warning", "error", "err", "critical", "crit", "fatal",
   "severe", "emerg", "emergency"]

/-- Tab-separated part count of a Python runtime line. -/
def PYTHON_EVENT_SIZE : Nat := 3

/-- Tab-separated part count of a Node.js runtime line. -/
def NODEJS_EVENT_SIZE : Nat := 4

/-- Marker of a managed-runtime log group. -/
def LAMBDA_LOG_GROUP : String := "/aws/lambda/"

/-- The body of the `try` block of `_extract_aws_logs_data`:
base64-decode, decompress, `json.loads`; the first raise wins. -/
def decodeChain (env : Env) (s : String) : Except PyErr JVal :=
  match b64decode s with
  | Except.error e => Except.error e
  | Except.ok bs =>
    match env.gunzip bs with
    | Except.error e => Except.error e
    | Except.ok txt => jsonLoads txt

/-- The `try` wrapper of `_extract_aws_logs_data`: any `ValueError` of
the chain is re-raised as `ValueError("Exception: json loads")`, other
exception classes propagate unchanged. -/
def _extract_aws_logs_data (env : Env) (event : JVal) : Except PyErr JVal :=
  match getJVal event "awslogs" with
  | Except.error e => Except.error e
  | Except.ok aw =>
    match getJVal aw "data" with
    | Except.error e => Except.error e
    | Except.ok (JVal.str s) =>
      (match decodeChain env s with
       | Except.ok doc => Except.ok doc
       | Except.error (PyErr.valueError _) =>
         Except.error (PyErr.valueError "Exception: json loads")
       | Except.error e => Except.error e)
    | Except.ok _ => Except.error (PyErr.typeError "argument should be ASCII string")

/-- Step 1 of `_extract_lambda_log_message`: the `try` block locating a
bracketed level token.  Returns the token to record (if its lowering is
in the vocabulary) and `start_split`. -/
def step1 (sm : List Char) : Option (List Char) × Nat :=
  match idxOfC '[' sm, idxOfC ']' sm with
  | some sl, some el =>
    let lvl := sliceL sm (sl + 1) el
    if String.mk (lowerL lvl) ∈ LOG_LEVELS then (some lvl, el + 2) else (none, 0)
  | _, _ => (none, 0)

/-- The record after step 1 alone: `log['log_level']` set when a known
level token was found, the record untouched otherwise. -/
def step1Rec (log : Rec) (sm : List Char) : Rec :=
  match (step1 sm).1 with
  | some lvl => setK log "log_level" (JVal.str (String.mk lvl))
  | none => log

/-- The tab split of the remainder, `str_message[start_split:].split('\t')`. -/
def tabParts (sm : List Char) : List (List Char) :=
  splitC '\t' (sliceFrom sm (step1 sm).2)

/-- The record updates of `_extract_lambda_log_message` applied to the
rendered message `sm`. -/
def extract_core (log : Rec) (sm : List Char) : Rec :=
  let log1 := step1Rec log sm
  let parts := tabParts sm
  let size := parts.length
  let log2 :=
    if size = PYTHON_EVENT_SIZE ∨ size = NODEJS_EVENT_SIZE then
      setK (setK (setK log1
        "@timestamp" (JVal.str (String.mk (parts.getD 0 []))))
        "requestID" (JVal.str (String.mk (parts.getD 1 []))))
        "message" (JVal.str (String.mk (parts.getD (size - 1) [])))
    else log1
  if size = NODEJS_EVENT_SIZE then
    setK log2 "log_level" (JVal.str (String.mk (parts.getD 2 [])))
  else log2

/-- `_extract_lambda_log_message`: `str(log['message'])`, then the
level/tab-split updates. -/
def _extract_lambda_log_message (log : Rec) : Except PyErr Rec :=
  match getItem log "message" with
  | Except.error e => Except.error e
  | Except.ok mv => Except.ok (extract_core log (pyStr mv).data)

/-- `_add_timestamp`. -/
def _add_timestamp (log : Rec) : Except PyErr Rec :=
  if containsK log "@timestamp" then Except.ok log
  else
    match getItem log "timestamp" with
    | Except.error e => Except.error e
    | Except.ok ts => Except.ok (delK (setK log "@timestamp" (JVal.str (pyStr ts))) "timestamp")

/-- The `try` block of `_parse_to_json`. -/
def _parse_to_json_inner (env : Env) (log : Rec) : Except PyErr Rec :=
  match env.format with
  | none => Except.error (PyErr.keyError "FORMAT")
  | some fmt =>
    if String.mk (lowerL fmt.data) = "json" then
      match getItem log "message" with
      | Except.error e => Except.error e
      | Except.ok (JVal.str s) =>
        (match jsonLoads s with
         | Except.error e => Except.error e
         | Except.ok (JVal.obj kvs) =>
           Except.ok (kvs.foldl (fun r kv => setK r kv.1 kv.2) log)
         | Except.ok _ => Except.error (PyErr.attributeError "items"))
      | Except.ok _ => Except.error (PyErr.typeError "the JSON object must be str")
    else Except.ok log

/-- `_parse_to_json`: the `except (KeyError, ValueError): pass` clause
absorbs exactly those two classes. -/
def _parse_to_json (env : Env) (log : Rec) : Except PyErr Rec :=
  match _parse_to_json_inner env log with
  | Except.ok r => Except.ok r
  | Except.error (PyErr.keyError _) => Except.ok log
  | Except.error (PyErr.valueError _) => Except.ok log
  | Except.error e => Except.error e

/-- `_anonymize_ip_addresses`. -/
def _anonymize_ip_addresses (env : Env) (log : Rec) : Except PyErr Rec :=
  match getItem log "message" with
  | Except.error e => Except.error e
  | Except.ok mv => Except.ok (setK log "message" (JVal.str (anonymizeStr env.pyHash (pyStr mv))))

/-- `_is_valid_log`: `message.startswith` needs a string receiver. -/
def _is_valid_log (log : Rec) : Except PyErr Bool :=
  match getItem log "message" with
  | Except.error e => Except.error e
  | Except.ok (JVal.str s) =>
    Except.ok (!(startsWithL ("START".data) s.data
      || startsWithL ("END".data) s.data
      || startsWithL ("REPORT".data) s.data))
  | Except.ok _ => Except.error (PyErr.attributeError "startswith")

/-- The tail of `_parse_cloudwatch_log` shared by both branches:
`del log['id']`, `log.update(additional_data)`, `_parse_to_json`,
`return True`. -/
def finishParse (env : Env) (log additional : Rec) : Except PyErr (Bool × Rec) :=
  match delItem log "id" with
  | Except.error e => Except.error e
  | Except.ok l4 =>
    match _parse_to_json env (updateRec l4 additional) with
    | Except.error e => Except.error e
    | Except.ok l6 => Except.ok (true, l6)

/-- `_parse_cloudwatch_log`. -/
def _parse_cloudwatch_log (env : Env) (log additional : Rec) :
    Except PyErr (Bool × Rec) :=
  match _add_timestamp log with
  | Except.error e => Except.error e
  | Except.ok l1 =>
    match _anonymize_ip_addresses env l1 with
    | Except.error e => Except.error e
    | Except.ok l2 =>
      match getItem additional "service" with
      | Except.error e => Except.error e
      | Except.ok (JVal.str svc) =>
        if subOccursL (LAMBDA_LOG_GROUP.data) svc.data then
          match _is_valid_log l2 with
          | Except.error e => Except.error e
          | Except.ok true =>
            (match _extract_lambda_log_message l2 with
             | Except.error e => Except.error e
             | Except.ok l3 => finishParse env l3 additional)
          | Except.ok false => Except.ok (false, l2)
        else finishParse env l2 additional
      | Except.ok _ => Except.error (PyErr.typeError "argument of type is not iterable")

/-- The `try ENRICH` block of `_get_additional_logs_data`: an absent
`ENRICH` is a caught `KeyError` (here: the `none` branch), an empty one
is falsy and skipped, and each piece is `split("=")` with indices 0 and
1 taken (`IndexError` when there is no `=`). -/
def enrichFold (env : Env) (base : Rec) : Except PyErr Rec :=
  match env.enrich with
  | none => Except.ok base
  | some e =>
    if e = "" then Except.ok base
    else
      (splitC ';' e.data).foldlM (fun r piece =>
        match splitC '=' piece with
        | k :: v :: _ => Except.ok (setK r (String.mk k) (JVal.str (String.mk v)))
        | _ => Except.error (PyErr.indexError "list index out of range")) base

/-- The configured destination type or its default. -/
def typeOf (env : Env) : String :=
  match env.typeTag with
  | some t => t
  | none => "logzio_cloudwatch_lambda"

/-- `_get_additional_logs_data`: `service`/`logger_name` from the batch,
the `ENRICH` pairs, then `TYPE` or its default. -/
def _get_additional_logs_data (env : Env) (aws_logs_data : JVal) : Except PyErr Rec :=
  match getJVal aws_logs_data "logGroup" with
  | Except.error e => Except.error e
  | Except.ok g =>
    match getJVal aws_logs_data "logStream" with
    | Except.error e => Except.error e
    | Except.ok s =>
      match enrichFold env [("service", g), ("logger_name", s)] with
      | Except.error e => Except.error e
      | Except.ok withEnrich => Except.ok (setK withEnrich "type" (JVal.str (typeOf env)))

/-- A call observed by the shipper collaborator. -/
inductive SinkOp where
  | add (r : Rec)
  | flush

/-- Is the call a `flush()`? -/
def isFlushOp : SinkOp → Bool
  | SinkOp.flush => true
  | _ => false

/-- Number of `flush()` calls in a trace. -/
def flushCount (tr : List SinkOp) : Nat :=
  (tr.filter isFlushOp).length

/-- `aws_logs_data['logEvents']` followed by `len(...)` and iteration:
a list yields its entries; a string or dict is iterable (characters or
keys, each a string, so a non-empty one fails the dict check in the
loop); other types fail `len()` with a `TypeError`. -/
def eventsOf (doc : JVal) : Except PyErr (List JVal) :=
  match getJVal doc "logEvents" with
  | Except.error e => Except.error e
  | Except.ok (JVal.arr l) => Except.ok l
  | Except.ok (JVal.str s) => Except.ok (s.data.map (fun c => JVal.str (String.mk [c])))
  | Except.ok (JVal.obj kvs) => Except.ok (kvs.map (fun kv => JVal.str kv.1))
  | Except.ok _ => Except.error (PyErr.typeError "has no len")

/-- The event loop of `lambda_handler`, recording the shipper calls. -/
def handlerLoop (env : Env) (additional : Rec) :
    List JVal → List SinkOp → Except PyErr Unit × List SinkOp
  | [], acc => (Except.ok (), acc ++ [SinkOp.flush])
  | v :: rest, acc =>
    match v with
    | JVal.obj kvs =>
      match _parse_cloudwatch_log env kvs additional with
      | Except.error e => (Except.error e, acc)
      | Except.ok (true, r) => handlerLoop env additional rest (acc ++ [SinkOp.add r])
      | Except.ok (false, _) => handlerLoop env additional rest acc
    | _ =>
      (Except.error (PyErr.typeError
        "Expected log inside logEvents to be a dict but found another type"), acc)

/-- `lambda_handler`: the invocation outcome and the trace of shipper
calls it performed. -/
def lambda_handler (env : Env) (event : JVal) : Except PyErr Unit × List SinkOp :=
  match _extract_aws_logs_data env event with
  | Except.error e => (Except.error e, [])
  | Except.ok doc =>
    match _get_additional_logs_data env doc with
    | Except.error e => (Except.error e, [])
    | Except.ok additional =>
      match eventsOf doc with
      | Except.error e => (Except.error e, [])
      | Except.ok evs => handlerLoop env additional evs []

/-- The records `_parse_cloudwatch_log` lets through for one entry. -/
def surviveOne (env : Env) (additional : Rec) (v : JVal) : Option Rec :=
  match v with
  | JVal.obj kvs =>
    match _parse_cloudwatch_log env kvs additional with
    | Except.ok (true, r) => some r
    | _ => none
  | _ => none

/-- The surviving records of a whole invocation, in event order. -/
def handlerSurvivors (env : Env) (event : JVal) : List Rec :=
  match _extract_aws_logs_data env event with
  | Except.error _ => []
  | Except.ok doc =>
    match _get_additional_logs_data env doc with
    | Except.error _ => []
    | Except.ok additional =>
      match eventsOf doc with
      | Except.error _ => []
      | Except.ok evs => evs.filterMap (surviveOne env additional)


/- ### Engine and trace lemmas -/

theorem mem_concatMap (f : α → List β) (l : List α) (b : β) :
    b ∈ concatMap f l ↔ ∃ a, a ∈ l ∧ b ∈ f a := by
  induction l with
  | nil => simp [concatMap]
  | cons a as ih =>
    simp only [concatMap, List.mem_append, ih, List.mem_cons]
    constructor
    · rintro (hb | ⟨x, hx, hb⟩)
      · exact ⟨a, Or.inl rfl, hb⟩
      · exact ⟨x, Or.inr hx, hb⟩
    · rintro ⟨x, hx | hx, hb⟩
      · exact Or.inl (hx ▸ hb)
      · exact Or.inr ⟨x, hx, hb⟩

theorem takeWhile_length_le (p : α → Bool) : ∀ (l : List α),
    (l.takeWhile p).length ≤ l.length := by
  intro l
  induction l with
  | nil => simp
  | cons a as ih =>
    by_cases hp : p a
    · simpa [List.takeWhile, hp] using ih
    · simp [List.takeWhile, hp]

theorem ends_ge (r : Re) : ∀ (cs : List Char) (pos e : Nat),
    e ∈ Re.ends r cs pos → pos ≤ e := by
  induction r with
  | fail => intro cs pos e h; simp [Re.ends] at h
  | eps =>
    intro cs pos e h
    simp [Re.ends] at h
    omega
  | cls p =>
    intro cs pos e h
    rcases hd : cs.drop pos with _ | ⟨c, t⟩
    · simp [Re.ends, hd] at h
    · by_cases hp : p c
      · simp [Re.ends, hd, hp] at h
        omega
      · simp [Re.ends, hd, hp] at h
  | plus p =>
    intro cs pos e h
    simp [Re.ends] at h
    obtain ⟨i, hi, rfl⟩ := h
    omega
  | seq a b iha ihb =>
    intro cs pos e h
    rw [Re.ends] at h
    rw [mem_concatMap] at h
    obtain ⟨m, hm, he⟩ := h
    exact le_trans (iha cs pos m hm) (ihb cs m e he)
  | alt a b iha ihb =>
    intro cs pos e h
    rw [Re.ends] at h
    rcases List.mem_append.mp h with h' | h'
    · exact iha cs pos e h'
    · exact ihb cs pos e h'

theorem ends_le (r : Re) : ∀ (cs : List Char) (pos e : Nat),
    pos ≤ cs.length → e ∈ Re.ends r cs pos → e ≤ cs.length := by
  induction r with
  | fail => intro cs pos e _ h; simp [Re.ends] at h
  | eps =>
    intro cs pos e hp h
    simp [Re.ends] at h
    omega
  | cls p =>
    intro cs pos e hp h
    rcases hd : cs.drop pos with _ | ⟨c, t⟩
    · simp [Re.ends, hd] at h
    · have hlen : cs.length - pos = t.length + 1 := by
        have := List.length_drop pos cs
        rw [hd] at this
        simpa using this.symm
      by_cases hq : p c
      · simp [Re.ends, hd, hq] at h
        omega
      · simp [Re.ends, hd, hq] at h
  | plus p =>
    intro cs pos e hp h
    simp [Re.ends] at h
    obtain ⟨i, hi, rfl⟩ := h
    have h1 : ((cs.drop pos).takeWhile p).length ≤ (cs.drop pos).length :=
      takeWhile_length_le p (cs.drop pos)
    have h2 : (cs.drop pos).length = cs.length - pos := List.length_drop pos cs
    omega
  | seq a b iha ihb =>
    intro cs pos e hp h
    rw [Re.ends] at h
    rw [mem_concatMap] at h
    obtain ⟨m, hm, he⟩ := h
    exact ihb cs m e (iha cs pos m hp hm) he
  | alt a b iha ihb =>
    intro cs pos e hp h
    rw [Re.ends] at h
    rcases List.mem_append.mp h with h' | h'
    · exact iha cs pos e hp h'
    · exact ihb cs pos e hp h'

theorem finditerAux_start_ge (cs : List Char) : ∀ (fuel pos : Nat) (m : Nat × Nat),
    m ∈ finditerAux cs fuel pos → pos ≤ m.1 := by
  intro fuel
  induction fuel with
  | zero => intro pos m h; simp [finditerAux] at h
  | succ fuel ih =>
    intro pos m h
    rw [finditerAux] at h
    by_cases hlen : cs.length ≤ pos
    · simp [hlen] at h
    · rw [if_neg hlen] at h
      by_cases hlb : lookbehindOk cs pos
      · rw [if_pos hlb] at h
        rcases hf : firstMatchEnd cs pos with _ | e
        · rw [hf] at h
          have := ih (pos + 1) m h
          omega
        · rw [hf] at h
          rcases List.mem_cons.mp h with h' | h'
          · rw [h']
          · have := ih (max e (pos + 1)) m h'
            omega
      · rw [if_neg hlb] at h
        have := ih (pos + 1) m h
        omega

theorem firstMatchEnd_mem (cs : List Char) (pos e : Nat)
    (h : firstMatchEnd cs pos = some e) :
    e ∈ Re.ends IP_PATTERN cs pos ∧ lookaheadOk cs e = true := by
  unfold firstMatchEnd at h
  exact ⟨List.mem_of_find?_eq_some h, List.find?_some h⟩

theorem finditerAux_valid (cs : List Char) : ∀ (fuel pos : Nat) (m : Nat × Nat),
    m ∈ finditerAux cs fuel pos → m.1 ≤ m.2 ∧ m.2 ≤ cs.length := by
  intro fuel
  induction fuel with
  | zero => intro pos m h; simp [finditerAux] at h
  | succ fuel ih =>
    intro pos m h
    rw [finditerAux] at h
    by_cases hlen : cs.length ≤ pos
    · simp [hlen] at h
    · rw [if_neg hlen] at h
      by_cases hlb : lookbehindOk cs pos
      · rw [if_pos hlb] at h
        rcases hf : firstMatchEnd cs pos with _ | e
        · rw [hf] at h
          exact ih (pos + 1) m h
        · rw [hf] at h
          rcases List.mem_cons.mp h with h' | h'
          · subst h'
            have hm := (firstMatchEnd_mem cs pos e hf).1
            exact ⟨ends_ge IP_PATTERN cs pos e hm,
                   ends_le IP_PATTERN cs pos e (by omega) hm⟩
          · exact ih (max e (pos + 1)) m h'
      · rw [if_neg hlb] at h
        exact ih (pos + 1) m h

theorem finditerAux_chain (cs : List Char) : ∀ (fuel pos : Nat),
    List.Chain' (fun a b : Nat × Nat => a.2 ≤ b.1) (finditerAux cs fuel pos) := by
  intro fuel
  induction fuel with
  | zero => intro pos; simp [finditerAux]
  | succ fuel ih =>
    intro pos
    rw [finditerAux]
    by_cases hlen : cs.length ≤ pos
    · simp [hlen]
    · rw [if_neg hlen]
      by_cases hlb : lookbehindOk cs pos
      · rw [if_pos hlb]
        rcases hf : firstMatchEnd cs pos with _ | e
        · exact ih (pos + 1)
        · refine List.chain'_cons'.mpr ⟨?_, ih (max e (pos + 1))⟩
          intro m hm
          have := finditerAux_start_ge cs fuel (max e (pos + 1)) m
            (List.mem_of_mem_head? hm)
          simp only
          omega
      · rw [if_neg hlb]
        exact ih (pos + 1)

theorem finditerAux_lookaround (cs : List Char) : ∀ (fuel pos : Nat) (m : Nat × Nat),
    m ∈ finditerAux cs fuel pos →
    lookbehindOk cs m.1 = true ∧ lookaheadOk cs m.2 = true := by
  intro fuel
  induction fuel with
  | zero => intro pos m h; simp [finditerAux] at h
  | succ fuel ih =>
    intro pos m h
    rw [finditerAux] at h
    by_cases hlen : cs.length ≤ pos
    · simp [hlen] at h
    · rw [if_neg hlen] at h
      by_cases hlb : lookbehindOk cs pos
      · rw [if_pos hlb] at h
        rcases hf : firstMatchEnd cs pos with _ | e
        · rw [hf] at h
          exact ih (pos + 1) m h
        · rw [hf] at h
          rcases List.mem_cons.mp h with h' | h'
          · subst h'
            exact ⟨hlb, (firstMatchEnd_mem cs pos e hf).2⟩
          · exact ih (max e (pos + 1)) m h'
      · rw [if_neg hlb] at h
        exact ih (pos + 1) m h

theorem anonFoldEq (h' : String → Int) (cs : List Char) :
    ∀ (ms : List (Nat × Nat)) (pos : Nat) (acc : List Char),
    (ms.foldl (anonStep h' cs) (pos, acc)).2
      ++ sliceL cs (ms.foldl (anonStep h' cs) (pos, acc)).1 cs.length
      = acc ++ renderMatches h' cs ms pos := by
  intro ms
  induction ms with
  | nil => intro pos acc; simp [renderMatches]
  | cons m ms ih =>
    intro pos acc
    obtain ⟨s, e⟩ := m
    simp only [List.foldl_cons, anonStep]
    rw [ih]
    simp [renderMatches]

theorem sliceL_zero_length (cs : List Char) : sliceL cs 0 cs.length = cs := by
  simp [sliceL]

theorem handlerLoop_ok (env : Env) (additional : Rec) :
    ∀ (evs : List JVal) (acc tr : List SinkOp),
    handlerLoop env additional evs acc = (Except.ok (), tr) →
    tr = acc ++ (evs.filterMap (surviveOne env additional)).map SinkOp.add
      ++ [SinkOp.flush] := by
  intro evs
  induction evs with
  | nil =>
    intro acc tr h
    simp [handlerLoop] at h
    simp [← h]
  | cons v rest ih =>
    intro acc tr h
    rcases v with _ | b | n | f | s | xs | kvs <;>
      simp only [handlerLoop] at h
    case obj =>
      rcases hp : _parse_cloudwatch_log env kvs additional with e | ⟨b, r⟩
      · rw [hp] at h
        simp at h
      · rw [hp] at h
        rcases b with _ | _
        · simp only at h
          have := ih acc tr h
          simpa [List.filterMap_cons, surviveOne, hp] using this
        · simp only at h
          have := ih (acc ++ [SinkOp.add r]) tr h
          simpa [List.filterMap_cons, surviveOne, hp] using this
    all_goals simp at h

theorem handlerLoop_error (env : Env) (additional : Rec) :
    ∀ (evs : List JVal) (acc tr : List SinkOp) (e : PyErr),
    handlerLoop env additional evs acc = (Except.error e, tr) →
    flushCount tr = flushCount acc := by
  intro evs
  induction evs with
  | nil => intro acc tr e h; simp [handlerLoop] at h
  | cons v rest ih =>
    intro acc tr e h
    rcases v with _ | b | n | f | s | xs | kvs <;>
      simp only [handlerLoop] at h
    case obj =>
      rcases hp : _parse_cloudwatch_log env kvs additional with e' | ⟨b, r⟩
      · rw [hp] at h
        simp at h
        simp [h.2]
      · rw [hp] at h
        rcases b with _ | _
        · simp only at h
          exact ih acc tr e h
        · simp only at h
          have := ih (acc ++ [SinkOp.add r]) tr e h
          simpa [flushCount, List.filter_append, isFlushOp] using this
    all_goals
      simp at h
      simp [h.2]

theorem countKey_setK_ne (r : Rec) (k k' : String) (v : JVal) (h : k' ≠ k) :
    countKey (setK r k v) k' = countKey r k' := by
  induction r with
  | nil => simp [setK, countKey, Ne.symm h]
  | cons p r ih =>
    obtain ⟨a, b⟩ := p
    by_cases ha : a = k
    · simp [setK, ha, countKey, Ne.symm h]
    · simpa [setK, ha, countKey] using ih

/- ### Claim C8 -/

/-- A record arriving with both timestamp keys. -/
def recBoth : Rec :=
  [("@timestamp", JVal.str "a"), ("timestamp", JVal.str "b"),
   ("id", JVal.str "1"), ("message", JVal.str "m")]

/-- C8 counterexample: on a record that already carries both
`@timestamp` and `timestamp`, the first orchestrator step leaves the
record unchanged, so both keys exist afterwards — not exactly one. -/
theorem add_timestamp_both_keys_cex :
    _add_timestamp recBoth = Except.ok recBoth
    ∧ (containsK recBoth "@timestamp" && containsK recBoth "timestamp") = true :=
  ⟨rfl, rfl⟩

/-- C8 (amended): for every input record carrying exactly one of the
two keys (`timestamp` at most once, as every Python dict does), the
first step succeeds and afterwards `@timestamp` is present and
`timestamp` is not; a record carrying both keys keeps both, and one
carrying neither raises `KeyError`. -/
theorem add_timestamp_exactly_one (log : Rec)
    (hcount : countKey log "timestamp" ≤ 1)
    (hx : (containsK log "@timestamp" ^^ containsK log "timestamp") = true) :
    ∃ r, _add_timestamp log = Except.ok r ∧
      containsK r "@timestamp" = true ∧ containsK r "timestamp" = false := by
  by_cases h1 : containsK log "@timestamp"
  · have h2 : containsK log "timestamp" = false := by
      rw [h1] at hx
      simpa using hx
    exact ⟨log, by simp [_add_timestamp, h1], h1, h2⟩
  · have h1' : containsK log "@timestamp" = false := by
      simpa using h1
    have h2 : containsK log "timestamp" = true := by
      rw [h1'] at hx
      simpa using hx
    obtain ⟨ts, hts⟩ : ∃ v, lookupJ log "timestamp" = some v := by
      rcases hl : lookupJ log "timestamp" with _ | v
      · rw [containsK, hl] at h2
        simp at h2
      · exact ⟨v, rfl⟩
    refine ⟨delK (setK log "@timestamp" (JVal.str (pyStr ts))) "timestamp", ?_, ?_, ?_⟩
    · simp [_add_timestamp, h1', getItem, hts]
    · rw [containsK, lookupJ_delK_ne _ _ _ (by decide)]
      simp [lookupJ_setK_self]
    · rw [containsK, lookupJ_delK_self]
      · rfl
      · rw [countKey_setK_ne _ _ _ _ (by decide)]
        exact hcount

/-- C8 witness: a record carrying only a raw `timestamp` is renamed. -/
theorem add_timestamp_exactly_one_witness :
    ∃ r, _add_timestamp [("timestamp", JVal.int 5), ("id", JVal.str "1")] = Except.ok r ∧
      containsK r "@timestamp" = true ∧ containsK r "timestamp" = false :=
  add_timestamp_exactly_one [("timestamp", JVal.int 5), ("id", JVal.str "1")]
    (by decide) (by decide)

/- ### Claim C1 -/

theorem extract_core_spec (log : Rec) (sm : List Char) :
    ((tabParts sm).length = PYTHON_EVENT_SIZE ∨ (tabParts sm).length = NODEJS_EVENT_SIZE →
       lookupJ (extract_core log sm) "@timestamp"
           = some (JVal.str (String.mk ((tabParts sm).getD 0 []))) ∧
       lookupJ (extract_core log sm) "requestID"
           = some (JVal.str (String.mk ((tabParts sm).getD 1 []))) ∧
       lookupJ (extract_core log sm) "message"
           = some (JVal.str (String.mk ((tabParts sm).getD ((tabParts sm).length - 1) []))))
    ∧ ((tabParts sm).length = NODEJS_EVENT_SIZE →
       lookupJ (extract_core log sm) "log_level"
           = some (JVal.str (String.mk ((tabParts sm).getD 2 []))))
    ∧ (¬((tabParts sm).length = PYTHON_EVENT_SIZE ∨ (tabParts sm).length = NODEJS_EVENT_SIZE) →
       extract_core log sm = step1Rec log sm) := by
  by_cases h4 : (tabParts sm).length = NODEJS_EVENT_SIZE
  · have h34 : (tabParts sm).length = PYTHON_EVENT_SIZE
        ∨ (tabParts sm).length = NODEJS_EVENT_SIZE := Or.inr h4
    have hec : extract_core log sm =
        setK (setK (setK (setK (step1Rec log sm)
          "@timestamp" (JVal.str (String.mk ((tabParts sm).getD 0 []))))
          "requestID" (JVal.str (String.mk ((tabParts sm).getD 1 []))))
          "message" (JVal.str (String.mk ((tabParts sm).getD ((tabParts sm).length - 1) []))))
          "log_level" (JVal.str (String.mk ((tabParts sm).getD 2 []))) := by
      simp only [extract_core]
      rw [if_pos h34, if_pos h4]
    refine ⟨fun _ => ?_, fun _ => ?_, fun hno => absurd h34 hno⟩
    · rw [hec]
      refine ⟨?_, ?_, ?_⟩
      · rw [lookupJ_setK_ne _ _ _ _ (by decide), lookupJ_setK_ne _ _ _ _ (by decide),
            lookupJ_setK_ne _ _ _ _ (by decide), lookupJ_setK_self]
      · rw [lookupJ_setK_ne _ _ _ _ (by decide), lookupJ_setK_ne _ _ _ _ (by decide),
            lookupJ_setK_self]
      · rw [lookupJ_setK_ne _ _ _ _ (by decide), lookupJ_setK_self]
    · rw [hec, lookupJ_setK_self]
  · by_cases h3 : (tabParts sm).length = PYTHON_EVENT_SIZE
    · have h34 : (tabParts sm).length = PYTHON_EVENT_SIZE
          ∨ (tabParts sm).length = NODEJS_EVENT_SIZE := Or.inl h3
      have hec : extract_core log sm =
          setK (setK (setK (step1Rec log sm)
            "@timestamp" (JVal.str (String.mk ((tabParts sm).getD 0 []))))
            "requestID" (JVal.str (String.mk ((tabParts sm).getD 1 []))))
            "message" (JVal.str (String.mk ((tabParts sm).getD ((tabParts sm).length - 1) []))) := by
        simp only [extract_core]
        rw [if_pos h34, if_neg h4]
      refine ⟨fun _ => ?_, fun hh => absurd hh h4, fun hno => absurd h34 hno⟩
      rw [hec]
      refine ⟨?_, ?_, ?_⟩
      · rw [lookupJ_setK_ne _ _ _ _ (by decide), lookupJ_setK_ne _ _ _ _ (by decide),
            lookupJ_setK_self]
      · rw [lookupJ_setK_ne _ _ _ _ (by decide), lookupJ_setK_self]
      · rw [lookupJ_setK_self]
    · have hno : ¬((tabParts sm).length = PYTHON_EVENT_SIZE
          ∨ (tabParts sm).length = NODEJS_EVENT_SIZE) := fun hh => hh.elim h3 h4
      have hec : extract_core log sm = step1Rec log sm := by
        simp only [extract_core]
        rw [if_neg hno, if_neg h4]
      exact ⟨fun hh => absurd hh hno, fun hh => absurd hh h4, fun _ => hec⟩

/-- The spec's runtime-log example message, as a record. -/
def exC1 : Rec := [("message", JVal.str "[ERROR] 2024-01-01T00:00:00Z\treq-123\tboom")]

/-- What the Runtime Message Parser produces for the example. -/
def outC1 : Rec :=
  [("message", JVal.str "boom"), ("log_level", JVal.str "ERROR"),
   ("@timestamp", JVal.str "2024-01-01T00:00:00Z"), ("requestID", JVal.str "req-123")]

/-- C1: for every record with a `message`, the Runtime Message Parser
splits the remainder after step 1 on tabs; exactly when the split has 3
or 4 parts it sets `@timestamp` to part 0, `requestID` to part 1 and
`message` to the last part; with 4 parts it additionally overwrites
`log_level` with part 2; any other count leaves the record as step 1
left it, raising no error; and the example message parses as stated. -/
theorem extract_lambda_log_message_claim (log : Rec) (mv : JVal)
    (hm : lookupJ log "message" = some mv) :
    (∃ r, _extract_lambda_log_message log = Except.ok r ∧
      ((tabParts (pyStr mv).data).length = PYTHON_EVENT_SIZE ∨
         (tabParts (pyStr mv).data).length = NODEJS_EVENT_SIZE →
        lookupJ r "@timestamp"
            = some (JVal.str (String.mk ((tabParts (pyStr mv).data).getD 0 []))) ∧
        lookupJ r "requestID"
            = some (JVal.str (String.mk ((tabParts (pyStr mv).data).getD 1 []))) ∧
        lookupJ r "message"
            = some (JVal.str (String.mk ((tabParts (pyStr mv).data).getD
                ((tabParts (pyStr mv).data).length - 1) [])))) ∧
      ((tabParts (pyStr mv).data).length = NODEJS_EVENT_SIZE →
        lookupJ r "log_level"
            = some (JVal.str (String.mk ((tabParts (pyStr mv).data).getD 2 [])))) ∧
      (¬((tabParts (pyStr mv).data).length = PYTHON_EVENT_SIZE ∨
           (tabParts (pyStr mv).data).length = NODEJS_EVENT_SIZE) →
        r = step1Rec log (pyStr mv).data))
    ∧ _extract_lambda_log_message exC1 = Except.ok outC1 := by
  constructor
  · refine ⟨extract_core log (pyStr mv).data, ?_,
      (extract_core_spec log (pyStr mv).data).1,
      (extract_core_spec log (pyStr mv).data).2.1,
      (extract_core_spec log (pyStr mv).data).2.2⟩
    simp [_extract_lambda_log_message, getItem, hm]
  · rfl

/-- C1 witness: a one-part message leaves the record as step 1 left it. -/
theorem extract_lambda_log_message_claim_witness :
    (∃ r, _extract_lambda_log_message [("message", JVal.str "x")] = Except.ok r ∧
      ((tabParts (pyStr (JVal.str "x")).data).length = PYTHON_EVENT_SIZE ∨
         (tabParts (pyStr (JVal.str "x")).data).length = NODEJS_EVENT_SIZE →
        lookupJ r "@timestamp"
            = some (JVal.str (String.mk ((tabParts (pyStr (JVal.str "x")).data).getD 0 []))) ∧
        lookupJ r "requestID"
            = some (JVal.str (String.mk ((tabParts (pyStr (JVal.str "x")).data).getD 1 []))) ∧
        lookupJ r "message"
            = some (JVal.str (String.mk ((tabParts (pyStr (JVal.str "x")).data).getD
                ((tabParts (pyStr (JVal.str "x")).data).length - 1) [])))) ∧
      ((tabParts (pyStr (JVal.str "x")).data).length = NODEJS_EVENT_SIZE →
        lookupJ r "log_level"
            = some (JVal.str (String.mk ((tabParts (pyStr (JVal.str "x")).data).getD 2 [])))) ∧
      (¬((tabParts (pyStr (JVal.str "x")).data).length = PYTHON_EVENT_SIZE ∨
           (tabParts (pyStr (JVal.str "x")).data).length = NODEJS_EVENT_SIZE) →
        r = step1Rec [("message", JVal.str "x")] (pyStr (JVal.str "x")).data))
    ∧ _extract_lambda_log_message exC1 = Except.ok outC1 :=
  extract_lambda_log_message_claim [("message", JVal.str "x")] (JVal.str "x") rfl

/- ### Concrete environments and batches for the examples -/

/-- A stand-in for the process hash in concrete runs. -/
def hash0 : String → Int := fun _ => 0

/-- A gzip stand-in whose decompression yields the given text. -/
def gzOf (s : String) : List Nat → Except PyErr String := fun _ => Except.ok s

/-- The invocation event: the empty string is valid base64 (of the
empty byte string); the batch text is supplied by the `gzOf` stand-in. -/
def evData : JVal := JVal.obj [("awslogs", JVal.obj [("data", JVal.str "")])]

/- ### Claim C4 -/

/-- Configuration with `FORMAT=json`. -/
def envJ : Env := ⟨some "json", none, none, hash0, gzOf ""⟩

/-- Configuration with no `FORMAT`. -/
def envNoFmt : Env := ⟨none, none, none, hash0, gzOf ""⟩

/-- C4: the JSON Flattener merges every top-level key of an object
message into the record (overwriting, including `message` itself when
the object defines it), and leaves the record unchanged when the flag
is absent or the message does not parse — but a message that parses as
JSON without being an object, here `"[1, 2]"`, raises an uncaught
`AttributeError` (a Python list has no `.items`), instead of the
claimed leave-unchanged outcome. -/
theorem parse_to_json_eval :
    _parse_to_json envJ [("message", JVal.str "[1, 2]")]
        = Except.error (PyErr.attributeError "items")
    ∧ _parse_to_json envJ
        [("message", JVal.str "\x7b\"user\":\"a\",\"level\":\"warn\"\x7d"), ("x", JVal.int 0)]
        = Except.ok
        [("message", JVal.str "\x7b\"user\":\"a\",\"level\":\"warn\"\x7d"), ("x", JVal.int 0),
         ("user", JVal.str "a"), ("level", JVal.str "warn")]
    ∧ _parse_to_json envJ [("message", JVal.str "\x7b\"message\":\"new\"\x7d")]
        = Except.ok [("message", JVal.str "new")]
    ∧ _parse_to_json envNoFmt [("message", JVal.str "[1, 2]")]
        = Except.ok [("message", JVal.str "[1, 2]")]
    ∧ _parse_to_json envJ [("message", JVal.str "not json")]
        = Except.ok [("message", JVal.str "not json")] :=
  ⟨rfl, rfl, rfl, rfl, rfl⟩

/- ### Claim C5 -/

theorem enrich_foldlM (l : List (List Char)) :
    ∀ (r : Rec), (∀ p ∈ l, 2 ≤ (splitC '=' p).length) →
    (l.foldlM (fun r piece =>
        match splitC '=' piece with
        | k :: v :: _ => Except.ok (setK r (String.mk k) (JVal.str (String.mk v)))
        | _ => Except.error (PyErr.indexError "list index out of range")) r
      : Except PyErr Rec)
      = Except.ok (l.foldl (fun r piece =>
          setK r (String.mk ((splitC '=' piece).getD 0 []))
            (JVal.str (String.mk ((splitC '=' piece).getD 1 [])))) r) := by
  induction l with
  | nil => intro r _; rfl
  | cons p l ih =>
    intro r h
    have hp := h p (List.mem_cons_self p l)
    rcases hsp : splitC '=' p with _ | ⟨k, t⟩
    · rw [hsp] at hp
      simp at hp
    · rcases t with _ | ⟨v, t'⟩
      · rw [hsp] at hp
        simp at hp
      · have ht := fun q hq => h q (List.mem_cons_of_mem p hq)
        simp only [List.foldlM_cons, List.foldl_cons, hsp]
        simpa using ih _ ht

/-- Configuration carrying an enrichment value that itself contains an
equals sign. -/
def envE : Env := ⟨none, some "k=a=b", none, hash0, gzOf ""⟩

/-- A minimal decoded batch document. -/
def dGS : JVal := JVal.obj [("logGroup", JVal.str "g"), ("logStream", JVal.str "s")]

/-- C5 counterexample: with enrichment string `"k=a=b"` the Builder
stores `"a"` — the text between the first and second `=` — not the
verbatim remainder `"a=b"` the claim promises, because the source
splits on every `=` and keeps only indices 0 and 1. -/
theorem enrich_split_cex :
    _get_additional_logs_data envE dGS = Except.ok
      [("service", JVal.str "g"), ("logger_name", JVal.str "s"),
       ("k", JVal.str "a"), ("type", JVal.str "logzio_cloudwatch_lambda")]
    ∧ lookupJ [("service", JVal.str "g"), ("logger_name", JVal.str "s"),
       ("k", JVal.str "a"), ("type", JVal.str "logzio_cloudwatch_lambda")] "k"
      ≠ some (JVal.str "a=b") := by
  refine ⟨rfl, ?_⟩
  intro h
  have h2 : (some (JVal.str "a") : Option JVal) = some (JVal.str "a=b") := h
  injection h2 with h3
  injection h3 with h4
  exact absurd h4 (by decide)

/-- Configuration and batch for the spec's enrichment example. -/
def envP : Env :=
  ⟨none, some "env=prod;team=core", none, hash0,
   gzOf "\x7b\"logEvents\": [\x7b\"id\": \"1\", \"timestamp\": 1, \"message\": \"a\"\x7d, \x7b\"id\": \"2\", \"timestamp\": 2, \"message\": \"b\"\x7d], \"logGroup\": \"g\", \"logStream\": \"s\"\x7d"⟩

/-- First emitted record of the enrichment example. -/
def rP1 : Rec :=
  [("message", JVal.str "a"), ("@timestamp", JVal.str "1"),
   ("service", JVal.str "g"), ("logger_name", JVal.str "s"),
   ("env", JVal.str "prod"), ("team", JVal.str "core"),
   ("type", JVal.str "logzio_cloudwatch_lambda")]

/-- Second emitted record of the enrichment example. -/
def rP2 : Rec :=
  [("message", JVal.str "b"), ("@timestamp", JVal.str "2"),
   ("service", JVal.str "g"), ("logger_name", JVal.str "s"),
   ("env", JVal.str "prod"), ("team", JVal.str "core"),
   ("type", JVal.str "logzio_cloudwatch_lambda")]

/-- C5 (amended): the Builder splits the enrichment string on `;` and
each piece on every `=`, storing the first component as key and the
second as value (so a stored value never contains `=`; a piece with no
`=` raises an uncaught `IndexError`), later pieces overwriting earlier
same-keyed ones; and with `"env=prod;team=core"` (JSON flattening not
enabled) every emitted record carries `env="prod"` and `team="core"`
beside `service`, `logger_name` and `type`. -/
theorem get_additional_logs_data_amended :
    (∀ (env : Env) (d g sv : JVal) (e : String),
      getJVal d "logGroup" = Except.ok g →
      getJVal d "logStream" = Except.ok sv →
      env.enrich = some e → e ≠ "" →
      (∀ p ∈ splitC ';' e.data, 2 ≤ (splitC '=' p).length) →
      _get_additional_logs_data env d = Except.ok
        (setK ((splitC ';' e.data).foldl (fun r piece =>
            setK r (String.mk ((splitC '=' piece).getD 0 []))
              (JVal.str (String.mk ((splitC '=' piece).getD 1 []))))
          [("service", g), ("logger_name", sv)])
          "type" (JVal.str (typeOf env))))
    ∧ _get_additional_logs_data envP dGS = Except.ok
        [("service", JVal.str "g"), ("logger_name", JVal.str "s"),
         ("env", JVal.str "prod"), ("team", JVal.str "core"),
         ("type", JVal.str "logzio_cloudwatch_lambda")]
    ∧ (lambda_handler envP evData).2
        = [SinkOp.add rP1, SinkOp.add rP2, SinkOp.flush]
    ∧ lookupJ rP1 "env" = some (JVal.str "prod")
    ∧ lookupJ rP1 "team" = some (JVal.str "core")
    ∧ lookupJ rP2 "env" = some (JVal.str "prod")
    ∧ lookupJ rP2 "team" = some (JVal.str "core") := by
  refine ⟨?_, rfl, rfl, rfl, rfl, rfl, rfl⟩
  intro env d g sv e hg hs he hne hp
  simp only [_get_additional_logs_data, hg, hs, enrichFold, he]
  rw [if_neg hne, enrich_foldlM _ _ hp]

/-- C5 witness: the general Builder description applied to the
example's configuration. -/
theorem get_additional_logs_data_amended_witness :
    _get_additional_logs_data envP dGS = Except.ok
      (setK ((splitC ';' ("env=prod;team=core" : String).data).foldl (fun r piece =>
          setK r (String.mk ((splitC '=' piece).getD 0 []))
            (JVal.str (String.mk ((splitC '=' piece).getD 1 []))))
        [("service", JVal.str "g"), ("logger_name", JVal.str "s")])
        "type" (JVal.str (typeOf envP))) :=
  get_additional_logs_data_amended.1 envP dGS (JVal.str "g") (JVal.str "s")
    "env=prod;team=core" rfl rfl rfl (by decide) (by decide)

/- ### Claim C2 -/

/-- C2: for every hash function and message, the Anonymizer's output is
exactly the interleaving that keeps every non-matching span verbatim
and in order and renders each `IP_PATTERN` match `m` as
`IP(str(hash(m)))`; a message with no matches is returned unchanged;
the matches are in order, non-overlapping, within bounds, and respect
both lookarounds; the token depends only on the matched text, so equal
literals get equal tokens; and the record stage never raises when a
`message` is present. -/
theorem anonymize_ip_addresses_claim (h' : String → Int) (cs : List Char) :
    anonymizeCore h' cs = renderMatches h' cs (ipFinditer cs) 0
    ∧ (ipFinditer cs = [] → anonymizeCore h' cs = cs)
    ∧ List.Chain' (fun a b : Nat × Nat => a.2 ≤ b.1) (ipFinditer cs)
    ∧ (∀ m ∈ ipFinditer cs, m.1 ≤ m.2 ∧ m.2 ≤ cs.length
        ∧ lookbehindOk cs m.1 = true ∧ lookaheadOk cs m.2 = true)
    ∧ (∀ m1 m2 : Nat × Nat, sliceL cs m1.1 m1.2 = sliceL cs m2.1 m2.2 →
        ipToken h' (sliceL cs m1.1 m1.2) = ipToken h' (sliceL cs m2.1 m2.2))
    ∧ (∀ (env : Env) (log : Rec) (mv : JVal), lookupJ log "message" = some mv →
        _anonymize_ip_addresses env log
          = Except.ok (setK log "message" (JVal.str (anonymizeStr env.pyHash (pyStr mv))))) := by
  have hA : anonymizeCore h' cs = renderMatches h' cs (ipFinditer cs) 0 := by
    have h1 := anonFoldEq h' cs (ipFinditer cs) 0 []
    simpa [anonymizeCore] using h1
  refine ⟨hA, ?_, finditerAux_chain cs (cs.length + 1) 0, ?_, ?_, ?_⟩
  · intro h0
    rw [hA, h0]
    simp [renderMatches, sliceL_zero_length]
  · intro m hm
    exact ⟨(finditerAux_valid cs (cs.length + 1) 0 m hm).1,
           (finditerAux_valid cs (cs.length + 1) 0 m hm).2,
           (finditerAux_lookaround cs (cs.length + 1) 0 m hm).1,
           (finditerAux_lookaround cs (cs.length + 1) 0 m hm).2⟩
  · intro m1 m2 h
    rw [h]
  · intro env log mv hm
    simp [_anonymize_ip_addresses, getItem, hm]

/-- C2 witness: a match-free message comes back unchanged, and the
stage rewrites a concrete record without raising. -/
theorem anonymize_ip_addresses_claim_witness :
    anonymizeCore hash0 ("no ips here".data) = "no ips here".data
    ∧ _anonymize_ip_addresses envNoFmt [("message", JVal.int 123)]
        = Except.ok (setK [("message", JVal.int 123)] "message"
            (JVal.str (anonymizeStr envNoFmt.pyHash (pyStr (JVal.int 123))))) :=
  ⟨(anonymize_ip_addresses_claim hash0 ("no ips here".data)).2.1 rfl,
   (anonymize_ip_addresses_claim hash0 []).2.2.2.2.2 envNoFmt
     [("message", JVal.int 123)] (JVal.int 123) rfl⟩

/- ### Claim C6 -/

theorem b64decodeAux_error_valueError : ∀ (cs : List Char) (q : List Nat) (pads : Nat)
    (out : List Nat) (e : PyErr),
    b64decodeAux cs q pads out = Except.error e → ∃ m, e = PyErr.valueError m := by
  intro cs
  induction cs with
  | nil =>
    intro q pads out e h
    rw [b64decodeAux] at h
    split at h
    · simp at h
    · injection h with h'
      exact ⟨_, h'.symm⟩
    · injection h with h'
      exact ⟨_, h'.symm⟩
  | cons c cs ih =>
    intro q pads out e h
    rw [b64decodeAux] at h
    split at h
    · split at h
      · exact ih _ _ _ _ h
      · exact ih _ _ _ _ h
    · split at h
      · split at h
        · split at h
          · split at h
            · simp at h
            · injection h with h'
              exact ⟨_, h'.symm⟩
          · exact ih _ _ _ _ h
        · exact ih _ _ _ _ h
      · exact ih _ _ _ _ h

theorem jsonLoads_error_valueError (s : String) (e : PyErr) :
    jsonLoads s = Except.error e → ∃ m, e = PyErr.valueError m := by
  intro h
  rw [jsonLoads] at h
  split at h
  · split at h
    · simp at h
    · injection h with h'
      exact ⟨_, h'.symm⟩
  · injection h with h'
    exact ⟨_, h'.symm⟩

/-- C6: the Batch Decoder fails — with one invocation-level error —
whenever base64 decoding, decompression or JSON parsing fails (a
`ValueError` of the first or last stage is re-raised as the single
`ValueError("Exception: json loads")`; a decompression failure
propagates as the gzip error), any such failure makes the handler abort
with an empty trace, before any record is emitted; and when all three
stages succeed it returns the parsed document, a pure value. -/
theorem extract_aws_logs_data_claim (env : Env) (event aw : JVal) (s : String)
    (h1 : getJVal event "awslogs" = Except.ok aw)
    (h2 : getJVal aw "data" = Except.ok (JVal.str s)) :
    (∀ e, b64decode s = Except.error e →
       _extract_aws_logs_data env event
         = Except.error (PyErr.valueError "Exception: json loads"))
    ∧ (∀ bs m, b64decode s = Except.ok bs →
       env.gunzip bs = Except.error (PyErr.osError m) →
       _extract_aws_logs_data env event = Except.error (PyErr.osError m))
    ∧ (∀ bs txt e, b64decode s = Except.ok bs → env.gunzip bs = Except.ok txt →
       jsonLoads txt = Except.error e →
       _extract_aws_logs_data env event
         = Except.error (PyErr.valueError "Exception: json loads"))
    ∧ (∀ bs txt doc, b64decode s = Except.ok bs → env.gunzip bs = Except.ok txt →
       jsonLoads txt = Except.ok doc →
       _extract_aws_logs_data env event = Except.ok doc)
    ∧ (∀ e, _extract_aws_logs_data env event = Except.error e →
       lambda_handler env event = (Except.error e, [])) := by
  refine ⟨?_, ?_, ?_, ?_, ?_⟩
  · intro e he
    have hv : ∃ m, e = PyErr.valueError m := by
      rw [b64decode] at he
      split at he
      · exact b64decodeAux_error_valueError s.data [] 0 [] e he
      · injection he with h'
        exact ⟨_, h'.symm⟩
    obtain ⟨m, rfl⟩ := hv
    simp [_extract_aws_logs_data, h1, h2, decodeChain, he]
  · intro bs m hb hg
    simp [_extract_aws_logs_data, h1, h2, decodeChain, hb, hg]
  · intro bs txt e hb hg hj
    obtain ⟨m, rfl⟩ := jsonLoads_error_valueError txt e hj
    simp [_extract_aws_logs_data, h1, h2, decodeChain, hb, hg, hj]
  · intro bs txt doc hb hg hj
    simp [_extract_aws_logs_data, h1, h2, decodeChain, hb, hg, hj]
  · intro e he
    simp [lambda_handler, he]

/-- A configuration whose decompression stage fails. -/
def envGz : Env := ⟨none, none, none, hash0, fun _ => Except.error (PyErr.osError "bad gzip")⟩

/-- C6 witness: a failing decompression aborts the invocation with an
empty trace. -/
theorem extract_aws_logs_data_claim_witness :
    _extract_aws_logs_data envGz evData = Except.error (PyErr.osError "bad gzip")
    ∧ lambda_handler envGz evData = (Except.error (PyErr.osError "bad gzip"), []) := by
  have hx := extract_aws_logs_data_claim envGz evData
    (JVal.obj [("data", JVal.str "")]) "" rfl rfl
  have h1 := hx.2.1 [] "bad gzip" rfl rfl
  exact ⟨h1, hx.2.2.2.2 (PyErr.osError "bad gzip") h1⟩

/- ### Claim C7 -/

/-- Batch with one lifecycle-marker record from a managed-runtime
log group. -/
def envN : Env :=
  ⟨none, none, none, hash0,
   gzOf "\x7b\"logEvents\": [\x7b\"id\": \"1\", \"timestamp\": 1, \"message\": \"START RequestId: req-123\"\x7d], \"logGroup\": \"/aws/lambda/x\", \"logStream\": \"s\"\x7d"⟩

/-- C7: in a batch whose `service` contains the managed-runtime marker,
a record whose message (as the filter sees it) starts with `START`,
`END` or `REPORT` is classified noise: `_parse_cloudwatch_log` drops it
before the enrichment steps and it never becomes a surviving record;
in particular the batch with `"START RequestId: req-123"` performs no
`add()` at all, only the final `flush()`. -/
theorem noise_filter_claim :
    (∀ (env : Env) (log additional l1 l2 : Rec) (svc m : String),
      _add_timestamp log = Except.ok l1 →
      _anonymize_ip_addresses env l1 = Except.ok l2 →
      lookupJ additional "service" = some (JVal.str svc) →
      subOccursL (LAMBDA_LOG_GROUP.data) svc.data = true →
      lookupJ l2 "message" = some (JVal.str m) →
      (startsWithL ("START".data) m.data || startsWithL ("END".data) m.data
        || startsWithL ("REPORT".data) m.data) = true →
      _parse_cloudwatch_log env log additional = Except.ok (false, l2)
        ∧ surviveOne env additional (JVal.obj log) = none)
    ∧ lambda_handler envN evData = (Except.ok (), [SinkOp.flush]) := by
  constructor
  · intro env log additional l1 l2 svc m ht ha hs hg hm hstart
    have hv : _is_valid_log l2 = Except.ok false := by
      simp [_is_valid_log, getItem, hm, hstart]
    have hp : _parse_cloudwatch_log env log additional = Except.ok (false, l2) := by
      simp [_parse_cloudwatch_log, ht, ha, getItem, hs, hg, hv]
    exact ⟨hp, by simp [surviveOne, hp]⟩
  · rfl

/-- C7 witness: the general drop fact at the example's record. -/
theorem noise_filter_claim_witness :
    _parse_cloudwatch_log envN
      [("id", JVal.str "1"), ("timestamp", JVal.int 1),
       ("message", JVal.str "START RequestId: req-123")]
      [("service", JVal.str "/aws/lambda/x"), ("logger_name", JVal.str "s"),
       ("type", JVal.str "logzio_cloudwatch_lambda")]
    = Except.ok (false,
        [("id", JVal.str "1"),
         ("message", JVal.str "START RequestId: req-123"),
         ("@timestamp", JVal.str "1")])
    ∧ surviveOne envN
        [("service", JVal.str "/aws/lambda/x"), ("logger_name", JVal.str "s"),
         ("type", JVal.str "logzio_cloudwatch_lambda")]
        (JVal.obj [("id", JVal.str "1"), ("timestamp", JVal.int 1),
          ("message", JVal.str "START RequestId: req-123")]) = none :=
  noise_filter_claim.1 envN
    [("id", JVal.str "1"), ("timestamp", JVal.int 1),
     ("message", JVal.str "START RequestId: req-123")]
    [("service", JVal.str "/aws/lambda/x"), ("logger_name", JVal.str "s"),
     ("type", JVal.str "logzio_cloudwatch_lambda")]
    [("id", JVal.str "1"), ("message", JVal.str "START RequestId: req-123"),
     ("@timestamp", JVal.str "1")]
    [("id", JVal.str "1"), ("message", JVal.str "START RequestId: req-123"),
     ("@timestamp", JVal.str "1")]
    "/aws/lambda/x" "START RequestId: req-123" rfl rfl rfl rfl rfl rfl

/- ### Claim C9 -/

theorem containsK_step1Rec (log : Rec) (sm : List Char) :
    containsK (step1Rec log sm) "id" = containsK log "id" := by
  rw [step1Rec]
  rcases (step1 sm).1 with _ | lvl
  · rfl
  · exact containsK_setK_ne _ _ _ _ (by decide)

theorem containsK_extract_core (log : Rec) (sm : List Char) :
    containsK (extract_core log sm) "id" = containsK log "id" := by
  by_cases h4 : (tabParts sm).length = NODEJS_EVENT_SIZE
  · have h34 : (tabParts sm).length = PYTHON_EVENT_SIZE
        ∨ (tabParts sm).length = NODEJS_EVENT_SIZE := Or.inr h4
    have hec : extract_core log sm =
        setK (setK (setK (setK (step1Rec log sm)
          "@timestamp" (JVal.str (String.mk ((tabParts sm).getD 0 []))))
          "requestID" (JVal.str (String.mk ((tabParts sm).getD 1 []))))
          "message" (JVal.str (String.mk ((tabParts sm).getD ((tabParts sm).length - 1) []))))
          "log_level" (JVal.str (String.mk ((tabParts sm).getD 2 []))) := by
      simp only [extract_core]
      rw [if_pos h34, if_pos h4]
    rw [hec, containsK_setK_ne _ _ _ _ (by decide), containsK_setK_ne _ _ _ _ (by decide),
        containsK_setK_ne _ _ _ _ (by decide), containsK_setK_ne _ _ _ _ (by decide),
        containsK_step1Rec]
  · by_cases h3 : (tabParts sm).length = PYTHON_EVENT_SIZE
    · have h34 : (tabParts sm).length = PYTHON_EVENT_SIZE
          ∨ (tabParts sm).length = NODEJS_EVENT_SIZE := Or.inl h3
      have hec : extract_core log sm =
          setK (setK (setK (step1Rec log sm)
            "@timestamp" (JVal.str (String.mk ((tabParts sm).getD 0 []))))
            "requestID" (JVal.str (String.mk ((tabParts sm).getD 1 []))))
            "message" (JVal.str (String.mk ((tabParts sm).getD ((tabParts sm).length - 1) []))) := by
        simp only [extract_core]
        rw [if_pos h34, if_neg h4]
      rw [hec, containsK_setK_ne _ _ _ _ (by decide), containsK_setK_ne _ _ _ _ (by decide),
          containsK_setK_ne _ _ _ _ (by decide), containsK_step1Rec]
    · have hno : ¬((tabParts sm).length = PYTHON_EVENT_SIZE
          ∨ (tabParts sm).length = NODEJS_EVENT_SIZE) := fun hh => hh.elim h3 h4
      have hec : extract_core log sm = step1Rec log sm := by
        simp only [extract_core]
        rw [if_neg hno, if_neg h4]
      rw [hec, containsK_step1Rec]

/-- Batch whose only record lacks the transient `id` field. -/
def envI : Env :=
  ⟨none, none, none, hash0,
   gzOf "\x7b\"logEvents\": [\x7b\"timestamp\": 1, \"message\": \"a\"\x7d], \"logGroup\": \"g\", \"logStream\": \"s\"\x7d"⟩

/-- C9: a dict entry that reaches the id-removal step — it passes the
noise filter, or its batch is not from a managed-runtime group — but
lacks `id` makes `_parse_cloudwatch_log` raise `KeyError('id')`; an
invocation that fails with any error has no `flush()` in its trace; and
the concrete one-record batch without `id` aborts with exactly that
error and an empty trace. -/
theorem parse_missing_id_claim :
    (∀ (env : Env) (log additional l1 l2 : Rec) (svc : String),
      _add_timestamp log = Except.ok l1 →
      _anonymize_ip_addresses env l1 = Except.ok l2 →
      lookupJ additional "service" = some (JVal.str svc) →
      containsK l2 "id" = false →
      (subOccursL (LAMBDA_LOG_GROUP.data) svc.data = false
        ∨ _is_valid_log l2 = Except.ok true) →
      _parse_cloudwatch_log env log additional = Except.error (PyErr.keyError "id"))
    ∧ (∀ (env : Env) (event : JVal) (e : PyErr) (tr : List SinkOp),
        lambda_handler env event = (Except.error e, tr) → flushCount tr = 0)
    ∧ lambda_handler envI evData = (Except.error (PyErr.keyError "id"), []) := by
  refine ⟨?_, ?_, rfl⟩
  · intro env log additional l1 l2 svc ht ha hs hid hbr
    by_cases hg : subOccursL (LAMBDA_LOG_GROUP.data) svc.data
    · have hval : _is_valid_log l2 = Except.ok true := by
        rcases hbr with hng | hval
        · rw [hng] at hg
          simp at hg
        · exact hval
      have hmsg : ∃ m, lookupJ l2 "message" = some (JVal.str m) := by
        rcases hl : lookupJ l2 "message" with _ | mv
        · simp [_is_valid_log, getItem, hl] at hval
        · rcases mv with _ | b | n | f | ms | xs | kvs <;>
            simp [_is_valid_log, getItem, hl] at hval
          exact ⟨ms, rfl⟩
      obtain ⟨m, hm⟩ := hmsg
      have hex : _extract_lambda_log_message l2
          = Except.ok (extract_core l2 (pyStr (JVal.str m)).data) := by
        simp [_extract_lambda_log_message, getItem, hm]
      have hid3 : containsK (extract_core l2 (pyStr (JVal.str m)).data) "id" = false := by
        rw [containsK_extract_core]
        exact hid
      have hfin : finishParse env (extract_core l2 (pyStr (JVal.str m)).data) additional
          = Except.error (PyErr.keyError "id") := by
        simp [finishParse, delItem, hid3]
      simp [_parse_cloudwatch_log, ht, ha, getItem, hs, hg, hval, hex, hfin]
    · have hg' : subOccursL (LAMBDA_LOG_GROUP.data) svc.data = false := by
        simpa using hg
      have hfin : finishParse env l2 additional = Except.error (PyErr.keyError "id") := by
        simp [finishParse, delItem, hid]
      simp [_parse_cloudwatch_log, ht, ha, getItem, hs, hg', hfin]
  · intro env event e tr h
    simp only [lambda_handler] at h
    split at h
    · have h2 := congrArg Prod.snd h
      simp only at h2
      rw [← h2]
      rfl
    · split at h
      · have h2 := congrArg Prod.snd h
        simp only at h2
        rw [← h2]
        rfl
      · split at h
        · have h2 := congrArg Prod.snd h
          simp only at h2
          rw [← h2]
          rfl
        · simpa [flushCount] using handlerLoop_error _ _ _ _ _ _ h

/-- C9 witness: the drop-through record of the concrete batch. -/
theorem parse_missing_id_claim_witness :
    _parse_cloudwatch_log envI
      [("timestamp", JVal.int 1), ("message", JVal.str "a")]
      [("service", JVal.str "g"), ("logger_name", JVal.str "s"),
       ("type", JVal.str "logzio_cloudwatch_lambda")]
    = Except.error (PyErr.keyError "id") :=
  parse_missing_id_claim.1 envI
    [("timestamp", JVal.int 1), ("message", JVal.str "a")]
    [("service", JVal.str "g"), ("logger_name", JVal.str "s"),
     ("type", JVal.str "logzio_cloudwatch_lambda")]
    [("message", JVal.str "a"), ("@timestamp", JVal.str "1")]
    [("message", JVal.str "a"), ("@timestamp", JVal.str "1")]
    "g" rfl rfl rfl rfl (Or.inl rfl)

/- ### Claim C10 -/

theorem anonymizeCore_no_matches (h' : String → Int) (cs : List Char)
    (h0 : ipFinditer cs = []) : anonymizeCore h' cs = cs := by
  simp [anonymizeCore, h0, sliceL_zero_length]

theorem String_mk_data (s : String) : String.mk s.data = s := rfl

/-- Batch whose only record carries a numeric `message`. -/
def envT : Env :=
  ⟨none, none, none, hash0,
   gzOf "\x7b\"logEvents\": [\x7b\"id\": \"1\", \"timestamp\": 1, \"message\": 123\x7d], \"logGroup\": \"g\", \"logStream\": \"s\"\x7d"⟩

/-- The record the numeric-message batch emits. -/
def rT : Rec :=
  [("message", JVal.str "123"), ("@timestamp", JVal.str "1"),
   ("service", JVal.str "g"), ("logger_name", JVal.str "s"),
   ("type", JVal.str "logzio_cloudwatch_lambda")]

/-- C10: the Anonymizer stage always rewrites `message` to the string
rendering of its current value — even with zero matches, where that
rendering is returned unchanged — so after the stage `message` is a
string; concretely, a record whose raw `message` is the number `123`
reaches the sink with `message` the string `"123"`. -/
theorem anonymize_message_string_claim :
    (∀ (env : Env) (log : Rec) (mv : JVal), lookupJ log "message" = some mv →
      ∃ l2, _anonymize_ip_addresses env log = Except.ok l2 ∧
        lookupJ l2 "message" = some (JVal.str (anonymizeStr env.pyHash (pyStr mv))) ∧
        (ipFinditer (pyStr mv).data = [] → anonymizeStr env.pyHash (pyStr mv) = pyStr mv))
    ∧ (lambda_handler envT evData).2 = [SinkOp.add rT, SinkOp.flush]
    ∧ lookupJ rT "message" = some (JVal.str "123") := by
  refine ⟨?_, rfl, rfl⟩
  intro env log mv hm
  refine ⟨setK log "message" (JVal.str (anonymizeStr env.pyHash (pyStr mv))), ?_, ?_, ?_⟩
  · simp [_anonymize_ip_addresses, getItem, hm]
  · exact lookupJ_setK_self log "message" _
  · intro h0
    rw [anonymizeStr, anonymizeCore_no_matches env.pyHash (pyStr mv).data h0,
        String_mk_data]

/-- C10 witness: the stage on a concrete numeric-message record. -/
theorem anonymize_message_string_claim_witness :
    ∃ l2, _anonymize_ip_addresses envT [("message", JVal.int 123)] = Except.ok l2 ∧
      lookupJ l2 "message"
        = some (JVal.str (anonymizeStr envT.pyHash (pyStr (JVal.int 123)))) ∧
      (ipFinditer (pyStr (JVal.int 123)).data = [] →
        anonymizeStr envT.pyHash (pyStr (JVal.int 123)) = pyStr (JVal.int 123)) :=
  anonymize_message_string_claim.1 envT [("message", JVal.int 123)] (JVal.int 123) rfl

/- ### Claim C3 -/

/-- Batch whose only entry is the dict `{}`. -/
def envB : Env :=
  ⟨none, none, none, hash0,
   gzOf "\x7b\"logEvents\": [\x7b\x7d], \"logGroup\": \"g\", \"logStream\": \"s\"\x7d"⟩

/-- C3 counterexample: a batch whose single entry is a dict — but an
empty one — aborts with `KeyError('timestamp')` before any shipper
call, so `flush()` is called zero times, not exactly once. -/
theorem handler_flush_cex :
    lambda_handler envB evData = (Except.error (PyErr.keyError "timestamp"), [])
    ∧ flushCount (lambda_handler envB evData).2 = 0 :=
  ⟨rfl, rfl⟩

/-- The batch of the spec's end-to-end example: one noise record and
one valid record from a managed-runtime log group. -/
def envH : Env :=
  ⟨none, none, none, hash0,
   gzOf "\x7b\"logEvents\": [\x7b\"id\": \"1\", \"timestamp\": 123, \"message\": \"START a\"\x7d, \x7b\"id\": \"2\", \"timestamp\": 124, \"message\": \"hi\"\x7d], \"logGroup\": \"/aws/lambda/app\", \"logStream\": \"st\"\x7d"⟩

/-- The single record the example batch emits. -/
def rH : Rec :=
  [("message", JVal.str "hi"), ("@timestamp", JVal.str "124"),
   ("service", JVal.str "/aws/lambda/app"), ("logger_name", JVal.str "st"),
   ("type", JVal.str "logzio_cloudwatch_lambda")]

/-- Managed-runtime batch whose only entry is a noise record that also
lacks the transient `id` field: the noise filter drops it before the
id-removal step ever runs, so the invocation completes normally. -/
def envS : Env :=
  ⟨none, none, none, hash0,
   gzOf "\x7b\"logEvents\": [\x7b\"timestamp\": 1, \"message\": \"START x\"\x7d], \"logGroup\": \"/aws/lambda/x\", \"logStream\": \"s\"\x7d"⟩

/-- C3 (amended): whenever the handler returns normally, its trace is
one `add` per surviving record, in original event order, followed by a
single terminal `flush`; the example batch with one noise and one
valid managed-runtime record yields exactly one `add` and one `flush`.
The restriction to normally-returning invocations is exactly what the
counterexample (`{}` entry, `KeyError('timestamp')`, zero flushes)
forces — it is not a field-presence condition: the last conjunct shows
a noise-classified dict entry missing only `id` is dropped before the
id-removal step and its invocation still completes with `flush()`. -/
theorem handler_trace_amended :
    (∀ (env : Env) (event : JVal) (tr : List SinkOp),
      lambda_handler env event = (Except.ok (), tr) →
      tr = (handlerSurvivors env event).map SinkOp.add ++ [SinkOp.flush])
    ∧ lambda_handler envH evData = (Except.ok (), [SinkOp.add rH, SinkOp.flush])
    ∧ lambda_handler envS evData = (Except.ok (), [SinkOp.flush]) := by
  refine ⟨?_, rfl, rfl⟩
  intro env event tr h
  rcases hx : _extract_aws_logs_data env event with e | doc
  · simp only [lambda_handler, hx] at h
    simp at h
  · rcases hadd : _get_additional_logs_data env doc with e | additional
    · simp only [lambda_handler, hx, hadd] at h
      simp at h
    · rcases hev : eventsOf doc with e | evs
      · simp only [lambda_handler, hx, hadd, hev] at h
        simp at h
      · simp only [lambda_handler, hx, hadd, hev] at h
        simp only [handlerSurvivors, hx, hadd, hev]
        simpa using handlerLoop_ok env additional evs [] tr h

/-- C3 witness: the general trace shape at the example batch. -/
theorem handler_trace_amended_witness :
    lambda_handler envH evData
      = (Except.ok (), (handlerSurvivors envH evData).map SinkOp.add ++ [SinkOp.flush]) := by
  have h2 := handler_trace_amended.2.1
  have h1 := handler_trace_amended.1 envH evData [SinkOp.add rH, SinkOp.flush] h2
  rw [h2, ← h1]
